import Mathlib

/-!
# Verification of the shell-lite command shell (`src/shell.cpp`)

A shallow embedding of the shell's core: tokenizer (`tokenize_line`, built on
C `strtok`), line reader (`read_line`, built on `getline`), command dispatcher
(`execute_cmd` with the built-in registry), built-in handlers (`cmd_cd`,
`cmd_help`, `cmd_exit`), process launcher (`launch_cmd`, fork/exec/waitpid),
and one iteration of the REPL driver (`repl_loop`).

Buffers are `List Char`; OS effects (fork success, exec success, waitpid
reports, chdir outcomes, allocation success) are oracle parameters gathered
in `OsWorld`, so every definition is executable.
-/

namespace ShellLite

/-! ## Tokenizer (`tokenize_line`, shell.cpp:225-272)

The C code tokenizes with `strtok(line, " \t\r\n\a")`. `strtok` skips runs of
delimiter characters, returns a pointer to the start of each maximal
delimiter-free run, and overwrites the single delimiter character that
terminates that run with NUL. `strtokRun` models one whole `strtok` loop over
a buffer: it returns the list of token values together with the mutated
buffer contents. -/

/-- The delimiter set of `tokenize_line`: `DELIM = " \t\r\n\a"` (space, tab,
carriage return, newline, bell). -/
def isDelim (c : Char) : Bool :=
  c == ' ' || c == '\t' || c == '\r' || c == '\n' || c == '\x07'

/-- A token character: anything outside the delimiter set. -/
def notDelim (c : Char) : Bool := !(isDelim c)

/-- The `strtok` loop of `tokenize_line` (shell.cpp:240-266), as a left-to-right
scan over the buffer contents. `acc` holds (reversed) the characters of the
token currently being scanned; `acc = []` means the scanner is between tokens
(skipping delimiters). Returns `(token values, buffer contents after the
loop)`: a skipped delimiter is left in place, the delimiter terminating a
token is overwritten with `'\x00'` (this is the write `strtok` performs), and
a token running to the end of the buffer causes no write. -/
def strtokGo (acc : List Char) : List Char → List (List Char) × List Char
  | [] => (if acc.isEmpty then [] else [acc.reverse], [])
  | c :: cs =>
    if isDelim c then
      if acc.isEmpty then
        let r := strtokGo [] cs
        (r.1, c :: r.2)
      else
        let r := strtokGo [] cs
        (acc.reverse :: r.1, '\x00' :: r.2)
    else
      let r := strtokGo (c :: acc) cs
      (r.1, c :: r.2)

/-- One whole `strtok(line, DELIM)` loop: token values and mutated buffer. -/
def strtokRun (line : List Char) : List (List Char) × List Char :=
  strtokGo [] line

/-- `tokenize_line` (shell.cpp:225-272): the argument vector it produces, as
strings (the C code returns pointers into the line buffer; their values are
the corresponding character runs, cf. `strtokRun`). -/
def tokenize_line (line : List Char) : List String :=
  (strtokRun line).1.map (fun t => String.mk t)

/-- The buffer contents of the line after `tokenize_line` has run. -/
def tokenize_line_buffer (line : List Char) : List Char :=
  (strtokRun line).2

/-! ### Spec-side descriptions of the tokenizer

`wsSplitSpec` is written from the specification's words (§4.2): the output is
the line split at whitespace characters, with empty pieces discarded, so that
any run of whitespace acts as a single delimiter and leading/trailing
whitespace produces no empty tokens. `strtokMutation` describes, position by
position, the writes `strtok` performs on the buffer. -/

/-- Split at every delimiter character, keeping empty pieces: the `foldr`
starts with one empty piece and opens a new piece at each delimiter. -/
def splitAtDelims (cs : List Char) : List (List Char) :=
  cs.foldr (fun c acc => if isDelim c then [] :: acc else (c :: acc.headD []) :: acc.tail) [[]]

/-- Spec-side tokenization (spec §4.2): split on whitespace, drop the empty
pieces, so each whitespace run is a single delimiter. -/
def wsSplitSpec (cs : List Char) : List (List Char) :=
  (splitAtDelims cs).filter (fun t => !t.isEmpty)

/-- Position-wise description of the buffer writes of one `strtok` loop:
a delimiter character immediately preceded by a token character is overwritten
with NUL; every other character is left unchanged. `prev` is the preceding
character of the buffer. -/
def strtokMutationAux (prev : Char) : List Char → List Char
  | [] => []
  | c :: cs => (if isDelim c && notDelim prev then '\x00' else c) :: strtokMutationAux c cs

/-- Position-wise description of the buffer after one `strtok` loop: the first
character is never overwritten; afterwards exactly the delimiters that
directly follow a token character become NUL. -/
def strtokMutation : List Char → List Char
  | [] => []
  | c :: cs => c :: strtokMutationAux c cs

/-! ## Process launcher (`launch_cmd`, shell.cpp:73-109)

OS outcomes are oracle data: whether `fork` succeeds, whether `execvp`
succeeds in the child, and the successive run-state reports delivered by
`waitpid(pid, &status, WUNTRACED)`. -/

/-- A child run-state as reported by `waitpid` with `WUNTRACED`: the child
exited normally, was terminated by a signal, or was stopped by a signal. -/
inductive WaitStatus where
  | exited (code : Nat)
  | signaled (sig : Nat)
  | stopped (sig : Nat)
deriving DecidableEq, Repr

/-- `WIFEXITED(status)`: the child terminated normally. -/
def wifexited : WaitStatus → Bool
  | .exited _ => true
  | _ => false

/-- `WIFSIGNALED(status)`: the child was terminated by a signal. -/
def wifsignaled : WaitStatus → Bool
  | .signaled _ => true
  | _ => false

/-- A terminal run-state in the sense of the spec's glossary: exited or
killed by a signal (not merely stopped). -/
def isTerminalState (s : WaitStatus) : Bool :=
  wifexited s || wifsignaled s

/-- The `do { waitpid(...) } while (!WIFEXITED && !WIFSIGNALED)` loop of the
parent branch (shell.cpp:92-105), run against the list of successive `waitpid`
reports. Returns the report the loop stops at together with the number of
`waitpid` calls made, or `none` if no report in the list ends the loop (the
parent is still blocked). -/
def waitLoop : List WaitStatus → Option (WaitStatus × Nat)
  | [] => none
  | s :: rest =>
    if !(wifexited s) && !(wifsignaled s) then
      (waitLoop rest).map (fun r => (r.1, r.2 + 1))
    else
      some (s, 1)

/-- Oracle data for the OS effects of one dispatched command. -/
structure OsWorld where
  /-- Does `fork()` succeed? -/
  forkOk : Bool
  /-- Do `malloc`/`realloc` in `tokenize_line` succeed? -/
  allocOk : Bool
  /-- Successive `waitpid(pid, &status, WUNTRACED)` reports for the child. -/
  waits : List WaitStatus
  /-- `chdir p`: `some d` = success with new working directory `d`,
  `none` = failure (`chdir` returns non-zero). -/
  chdir : String → Option String

/-- How a call into the command layer ends, seen from the calling process. -/
inductive CmdOutcome where
  | ret (status : Nat)
  | exitProcess (code : Nat)
  | blocked
deriving DecidableEq, Repr

/-- Result of `launch_cmd` in the process that called it (the parent when the
fork succeeded): the outcome, the number of `waitpid` calls made, and the
diagnostic messages printed. -/
structure LaunchResult where
  outcome : CmdOutcome
  waitCalls : Nat
  msgs : List String
deriving DecidableEq, Repr

/-- `launch_cmd` (shell.cpp:73-109), parent side. `fork` failure: report and
`return 0` with no `waitpid` call. Otherwise the parent runs the wait loop and
returns `1` once a report satisfies `WIFEXITED || WIFSIGNALED`; if no such
report arrives it stays blocked. -/
def launch_cmd (w : OsWorld) : LaunchResult :=
  if !w.forkOk then
    { outcome := .ret 0, waitCalls := 0,
      msgs := ["Error forking process", "[shell] Error forking child process."] }
  else
    match waitLoop w.waits with
    | some r => { outcome := .ret 1, waitCalls := r.2, msgs := [] }
    | none => { outcome := .blocked, waitCalls := w.waits.length, msgs := [] }

/-- What becomes of the forked child inside `launch_cmd`. -/
inductive ChildBehavior where
  | imageReplaced
  | returnedToCaller (status : Nat)
  | terminatedProcess (code : Nat)
deriving DecidableEq, Repr

/-- `launch_cmd` (shell.cpp:78-83), child side, as a function of whether
`execvp` succeeds: on success the process image is replaced; on failure the
child prints a diagnostic and `return 0` — i.e. control returns from
`launch_cmd` into the caller (`execute_cmd`, then `repl_loop`) inside the
child process. -/
def launch_cmd_child (execOk : Bool) : ChildBehavior × List String :=
  if execOk then
    (.imageReplaced, [])
  else
    (.returnedToCaller 0, ["[shell] Error launching command."])

/-! ## Built-in commands (shell.cpp:50-54, 145-186) -/

/-- A registered built-in handler. -/
inductive Builtin where
  | cd
  | help
  | exitSh
deriving DecidableEq, Repr

/-- The built-in registry `built_in_cmds` (shell.cpp:50-54): an exact-name
mapping from command name to handler. -/
def built_in_cmds : List (String × Builtin) :=
  [("cd", .cd), ("help", .help), ("exit", .exitSh)]

/-- `cmd_cd` (shell.cpp:145-159): given the `chdir` oracle and the current
working directory, returns `(outcome, working directory after the call,
diagnostics)`. `args[1]` absent → usage error, `return 0`; `chdir` failure →
report, `return 0`; success → `return 1`. -/
def cmd_cd (ch : String → Option String) (cwd : String) (args : List String) :
    CmdOutcome × String × List String :=
  match args[1]? with
  | none => (.ret 0, cwd, ["No path provided. Usage: cd <path>"])
  | some p =>
    match ch p with
    | none => (.ret 0, cwd, ["[shell] Error changing directory."])
    | some d => (.ret 1, d, [])

/-- `cmd_help` (shell.cpp:166-175): prints the listing, always `return 1`. -/
def cmd_help (_args : List String) : CmdOutcome := .ret 1

/-- `cmd_exit` (shell.cpp:182-186): prints a farewell and calls
`exit(EXIT_SUCCESS)`; the process terminates with code 0 and the handler never
returns, whatever the arguments. -/
def cmd_exit (_args : List String) : CmdOutcome := .exitProcess 0

/-! ## Command dispatcher (`execute_cmd`, shell.cpp:117-130) -/

/-- Where `execute_cmd` routed a command. -/
inductive Route where
  | emptyNotice
  | builtin (name : String)
  | externalProg (name : String)
deriving DecidableEq, Repr

/-- Result of `execute_cmd`: outcome, working directory after the call, the
route taken, and diagnostics printed. -/
structure ExecResult where
  outcome : CmdOutcome
  cwd : String
  route : Route
  msgs : List String
deriving DecidableEq, Repr

/-- Run the handler registered for a built-in name. -/
def runBuiltin (w : OsWorld) (cwd : String) : Builtin → List String →
    CmdOutcome × String × List String
  | .cd, args => cmd_cd w.chdir cwd args
  | .help, args => (cmd_help args, cwd, [])
  | .exitSh, args => (cmd_exit args, cwd, [])

/-- `execute_cmd` (shell.cpp:117-130): zero arguments → notice and `return 1`;
otherwise look `args[0]` up in the registry by exact string match and run the
handler if found; only otherwise delegate to `launch_cmd`. -/
def execute_cmd (w : OsWorld) (cwd : String) (args : List String) : ExecResult :=
  match args with
  | [] =>
    { outcome := .ret 1, cwd := cwd, route := .emptyNotice,
      msgs := ["Empty command entered, please enter your input..."] }
  | a0 :: _ =>
    match built_in_cmds.lookup a0 with
    | some b =>
      let r := runBuiltin w cwd b args
      { outcome := r.1, cwd := r.2.1, route := .builtin a0, msgs := r.2.2 }
    | none =>
      let r := launch_cmd w
      { outcome := r.outcome, cwd := cwd, route := .externalProg a0, msgs := r.msgs }

/-! ## Line reader (`read_line`, shell.cpp:200-218) and REPL driver
(`repl_loop`, shell.cpp:284-312) -/

/-- The state of standard input as seen by one `read_line` call. -/
inductive InStream where
  | text (cs : List Char)
  | ioError
deriving DecidableEq, Repr

/-- POSIX `getline` on a non-empty stream: reads up to and including the first
`'\n'` and keeps that newline in the returned buffer; if the stream ends
before a newline, the final partial line is returned as is. Returns
`(line buffer, remaining stream)`. -/
def getline (cs : List Char) : List Char × List Char :=
  match cs.dropWhile (fun c => c != '\n') with
  | [] => (cs, [])
  | _ :: rest => (cs.takeWhile (fun c => c != '\n') ++ ['\n'], rest)

/-- `read_line` (shell.cpp:200-218): on a successful read, `.ok (line, rest)`
with the line exactly as `getline` stored it; at end of input,
`exit(EXIT_SUCCESS)` (modelled `.error 0`); on a read error, `exit(EXIT_FAILURE)`
(modelled `.error 1`). -/
def read_line : InStream → Except Nat (List Char × List Char)
  | .ioError => .error 1
  | .text [] => .error 0
  | .text (c :: cs) => .ok (getline (c :: cs))

/-- `sizeof(line)` in the guard at shell.cpp:293: `line` is a `char*`, so this
is the size of a pointer (8 on the LP64 build target), not the length of the
input. -/
def sizeof_line : Nat := 8

/-- How one iteration of `repl_loop` ends. -/
inductive IterResult where
  | exitProc (code : Nat)
  | next (restInput : List Char) (cwd : String)
  | blockedWait
deriving DecidableEq, Repr

/-- Tokenize the line and dispatch it (shell.cpp:299-300), then classify how
the iteration ends: an outcome `.ret s` (any `s`) lets the loop continue to
the next prompt; `.exitProcess` ends the process; `.blocked` means the
launcher is still waiting. -/
def repl_dispatch (w : OsWorld) (cwd : String) (line : List Char) (rest : List Char) :
    IterResult :=
  match execute_cmd w cwd (tokenize_line line) with
  | { outcome := .exitProcess code, .. } => .exitProc code
  | { outcome := .ret _, cwd := cwd', .. } => .next rest cwd'
  | { outcome := .blocked, .. } => .blockedWait

/-- The body of `repl_loop` after a line has been read (shell.cpp:293-310):
the `sizeof(line) == 0` guard (whose branch would `continue` the loop), then
tokenize and dispatch. `tokenize_line`'s allocation failure calls
`exit(EXIT_FAILURE)`. -/
def repl_body (w : OsWorld) (cwd : String) (line : List Char) (rest : List Char) :
    IterResult :=
  if sizeof_line == 0 then
    .next rest cwd
  else if !w.allocOk then
    .exitProc 1
  else
    repl_dispatch w cwd line rest

/-- One iteration of `repl_loop` (shell.cpp:289-311): prompt, read a line
(`read_line` terminates the process at end of input or on a read error),
then `repl_body`. -/
def repl_iteration (w : OsWorld) (cwd : String) (inp : InStream) : IterResult :=
  match read_line inp with
  | .error code => .exitProc code
  | .ok (line, rest) => repl_body w cwd line rest

/-! ## Tokenizer lemmas -/

theorem splitAtDelims_nil : splitAtDelims [] = [[]] := rfl

theorem splitAtDelims_cons (c : Char) (cs : List Char) :
    splitAtDelims (c :: cs) =
      if isDelim c then [] :: splitAtDelims cs
      else (c :: (splitAtDelims cs).headD []) :: (splitAtDelims cs).tail := rfl

theorem splitAtDelims_ne_nil (cs : List Char) : splitAtDelims cs ≠ [] := by
  induction cs with
  | nil => simp [splitAtDelims_nil]
  | cons c cs ih =>
    rw [splitAtDelims_cons]
    split <;> simp

/-- The token values produced by the `strtok` scan, for an arbitrary scanner
state `acc`: the pending token is completed by the first group of the
delimiter-split of the rest, and empty groups are dropped. -/
theorem strtokGo_fst (cs : List Char) : ∀ acc : List Char,
    (strtokGo acc cs).1 =
      ((acc.reverse ++ (splitAtDelims cs).headD []) :: (splitAtDelims cs).tail).filter
        (fun t => !t.isEmpty) := by
  induction cs with
  | nil =>
    intro acc
    cases acc with
    | nil => simp [strtokGo, splitAtDelims_nil, List.filter_cons]
    | cons a as =>
      have hne : (as.reverse ++ [a]).isEmpty = false := by simp
      simp [strtokGo, splitAtDelims_nil, List.filter_cons, hne]
  | cons c cs ih =>
    intro acc
    obtain ⟨g, gs, hS⟩ : ∃ g gs, splitAtDelims cs = g :: gs := by
      cases h : splitAtDelims cs with
      | nil => exact absurd h (splitAtDelims_ne_nil cs)
      | cons g gs => exact ⟨g, gs, rfl⟩
    by_cases hc : isDelim c
    · rw [splitAtDelims_cons, if_pos hc]
      cases acc with
      | nil =>
        simp only [strtokGo, hc, if_true, List.isEmpty_nil, ih, hS]
        simp [List.filter_cons]
      | cons a as =>
        have hne : ((a :: as).reverse).isEmpty = false := by simp
        simp only [strtokGo, hc, if_true, List.isEmpty_cons, if_false, ih, hS]
        simp [List.filter_cons, hne]
    · have hcb : isDelim c = false := by simpa using hc
      rw [splitAtDelims_cons, if_neg hc]
      simp only [strtokGo, hcb, Bool.false_eq_true, if_false, ih, hS]
      simp [List.filter_cons]

/-- `tokenize_line` refines the spec-side tokenization: the token values are
exactly the whitespace-run split of the line with empty pieces dropped. -/
theorem strtokRun_fst_eq_wsSplitSpec (line : List Char) :
    (strtokRun line).1 = wsSplitSpec line := by
  obtain ⟨g, gs, hS⟩ : ∃ g gs, splitAtDelims line = g :: gs := by
    cases h : splitAtDelims line with
    | nil => exact absurd h (splitAtDelims_ne_nil line)
    | cons g gs => exact ⟨g, gs, rfl⟩
  rw [strtokRun, strtokGo_fst, wsSplitSpec, hS]
  simp

/-- A line consisting only of delimiter characters yields no tokens. -/
theorem strtokGo_all_delim (cs : List Char) (h : ∀ c ∈ cs, isDelim c = true) :
    (strtokGo [] cs).1 = [] := by
  induction cs with
  | nil => simp [strtokGo]
  | cons c cs ih =>
    have hc : isDelim c = true := h c (by simp)
    simp only [strtokGo, hc, if_pos rfl, List.isEmpty_nil]
    exact ih (fun x hx => h x (by simp [hx]))

/-- Tokens are never empty. -/
theorem strtokRun_fst_ne_nil (line : List Char) (t : List Char)
    (ht : t ∈ (strtokRun line).1) : t ≠ [] := by
  rw [strtokRun_fst_eq_wsSplitSpec, wsSplitSpec] at ht
  have := List.of_mem_filter ht
  simpa [List.isEmpty_iff] using this

/-- The buffer writes of the `strtok` scan, for an arbitrary scanner state:
`acc` is empty exactly when the previous character was a delimiter. -/
theorem strtokGo_snd (cs : List Char) : ∀ (acc : List Char) (prev : Char),
    acc.isEmpty = isDelim prev →
    (strtokGo acc cs).2 = strtokMutationAux prev cs := by
  induction cs with
  | nil => intro acc prev _; cases acc <;> simp [strtokGo, strtokMutationAux]
  | cons c cs ih =>
    intro acc prev hstate
    by_cases hc : isDelim c
    · cases acc with
      | nil =>
        have hprev : isDelim prev = true := by simpa using hstate.symm
        simp only [strtokGo, hc, if_pos rfl, List.isEmpty_nil, strtokMutationAux,
          notDelim, hprev, Bool.not_true, Bool.and_false, if_neg]
        rw [ih [] c (by simp [hc])]
        simp
      | cons a as =>
        have hprev : isDelim prev = false := by simpa using hstate.symm
        simp only [strtokGo, hc, if_pos rfl, List.isEmpty_cons, strtokMutationAux,
          notDelim, hprev, Bool.not_false, Bool.and_true, if_pos]
        rw [ih [] c (by simp [hc])]
        simp [hc]
    · have hcb : isDelim c = false := by simpa using hc
      simp only [strtokGo, hcb, Bool.false_eq_true, if_neg, strtokMutationAux,
        Bool.false_and]
      rw [ih (c :: acc) c (by simp [hcb])]
      simp

/-- The buffer after one `strtok` loop: exactly the delimiters directly
following a token character have been overwritten with NUL. -/
theorem tokenize_line_buffer_eq_mutation (line : List Char) :
    tokenize_line_buffer line = strtokMutation line := by
  cases line with
  | nil => rfl
  | cons c cs =>
    rw [tokenize_line_buffer, strtokRun, strtokMutation]
    by_cases hc : isDelim c
    · simp only [strtokGo, hc, if_true, List.isEmpty_nil]
      rw [strtokGo_snd cs [] c (by simp [hc])]
    · have hcb : isDelim c = false := by simpa using hc
      simp only [strtokGo, hcb, Bool.false_eq_true, if_false]
      rw [strtokGo_snd cs [c] c (by simp [hcb])]

/-! ## Line-reader lemmas -/

theorem takeWhile_no_newline (pre rest : List Char) (h : ∀ c ∈ pre, c ≠ '\n') :
    (pre ++ '\n' :: rest).takeWhile (fun c => c != '\n') = pre := by
  induction pre with
  | nil => simp [List.takeWhile]
  | cons p ps ih =>
    have hp : (p != '\n') = true := by
      simpa using h p (by simp)
    simp only [List.cons_append, List.takeWhile_cons, hp, if_true]
    rw [ih (fun c hc => h c (by simp [hc]))]

theorem dropWhile_no_newline (pre rest : List Char) (h : ∀ c ∈ pre, c ≠ '\n') :
    (pre ++ '\n' :: rest).dropWhile (fun c => c != '\n') = '\n' :: rest := by
  induction pre with
  | nil => simp [List.dropWhile]
  | cons p ps ih =>
    have hp : (p != '\n') = true := by
      simpa using h p (by simp)
    simp only [List.cons_append, List.dropWhile_cons, hp, if_true]
    exact ih (fun c hc => h c (by simp [hc]))

/-! ## Wait-loop lemmas -/

theorem waitLoop_cons_stopped (sig : Nat) (rest : List WaitStatus) :
    waitLoop (.stopped sig :: rest) = (waitLoop rest).map (fun r => (r.1, r.2 + 1)) := by
  simp [waitLoop, wifexited, wifsignaled]

theorem waitLoop_terminal (l : List WaitStatus) :
    ∀ (s : WaitStatus) (n : Nat), waitLoop l = some (s, n) → isTerminalState s = true := by
  induction l with
  | nil => intro s n h; exact Option.noConfusion h
  | cons a rest ih =>
    intro s n h
    rw [waitLoop] at h
    by_cases ha : (!(wifexited a) && !(wifsignaled a)) = true
    · rw [if_pos ha] at h
      cases hm : waitLoop rest with
      | none => rw [hm] at h; simp at h
      | some r =>
        rw [hm] at h
        simp only [Option.map_some', Option.some.injEq, Prod.mk.injEq] at h
        obtain ⟨hs, -⟩ := h
        exact hs ▸ ih r.1 r.2 (by rw [hm])
    · rw [if_neg ha] at h
      simp only [Option.some.injEq, Prod.mk.injEq] at h
      obtain ⟨hs, -⟩ := h
      subst hs
      simp only [Bool.and_eq_true, Bool.not_eq_true', not_and] at ha
      simp only [isTerminalState]
      cases he : wifexited a with
      | true => rfl
      | false =>
        have hs2 : ¬ wifsignaled a = false := ha he
        simp only [Bool.not_eq_false] at hs2
        simp [hs2]

theorem waitLoop_finds_terminal (l : List WaitStatus)
    (h : ∃ s ∈ l, isTerminalState s = true) :
    ∃ s n, waitLoop l = some (s, n) := by
  induction l with
  | nil => simp at h
  | cons a rest ih =>
    by_cases ha : isTerminalState a = true
    · have ha' : (wifexited a || wifsignaled a) = true := by
        simpa [isTerminalState] using ha
      have hcond : (!(wifexited a) && !(wifsignaled a)) = false := by
        cases he : wifexited a with
        | true => simp [he]
        | false =>
          have hs2 : wifsignaled a = true := by simpa [he] using ha'
          simp [hs2]
      exact ⟨a, 1, by simp [waitLoop, hcond]⟩
    · have ha' : (wifexited a || wifsignaled a) = false := by
        simpa [isTerminalState] using ha
      have he : wifexited a = false := by
        cases hx : wifexited a with
        | true => rw [hx] at ha'; simp at ha'
        | false => rfl
      have hs2 : wifsignaled a = false := by simpa [he] using ha'
      have hcond : (!(wifexited a) && !(wifsignaled a)) = true := by simp [he, hs2]
      obtain ⟨s, hs, hts⟩ := h
      rcases List.mem_cons.mp hs with rfl | hmem
      · exact absurd hts ha
      · obtain ⟨s', n', hm⟩ := ih ⟨s, hmem, hts⟩
        exact ⟨s', n' + 1, by simp [waitLoop, hcond, hm]⟩

/-! ## Dispatcher lemmas -/

theorem lookup_built_in_eq (a0 : String) :
    built_in_cmds.lookup a0 =
      if a0 = "cd" then some Builtin.cd
      else if a0 = "help" then some Builtin.help
      else if a0 = "exit" then some Builtin.exitSh
      else none := by
  by_cases h1 : a0 = "cd"
  · subst h1; rfl
  · by_cases h2 : a0 = "help"
    · subst h2; rfl
    · by_cases h3 : a0 = "exit"
      · subst h3; rfl
      · have b1 : (a0 == "cd") = false := beq_eq_false_iff_ne.mpr h1
        have b2 : (a0 == "help") = false := beq_eq_false_iff_ne.mpr h2
        have b3 : (a0 == "exit") = false := beq_eq_false_iff_ne.mpr h3
        simp [built_in_cmds, List.lookup, b1, b2, b3, h1, h2, h3]

theorem launch_cmd_outcome_ne_exit (w : OsWorld) (code : Nat) :
    (launch_cmd w).outcome ≠ .exitProcess code := by
  unfold launch_cmd
  split
  · simp
  · split <;> simp

theorem cmd_cd_outcome_ret (ch : String → Option String) (cwd : String)
    (args : List String) : ∃ s, (cmd_cd ch cwd args).1 = CmdOutcome.ret s := by
  unfold cmd_cd
  split
  · exact ⟨0, rfl⟩
  · split
    · exact ⟨0, rfl⟩
    · exact ⟨1, rfl⟩

/-- The only way `execute_cmd` ends the process is through the `exit`
built-in: if it reports `exitProcess`, the command name was `"exit"`. -/
theorem execute_cmd_exit_only (w : OsWorld) (cwd : String) (args : List String)
    (code : Nat) (h : (execute_cmd w cwd args).outcome = .exitProcess code) :
    args.head? = some "exit" := by
  match args with
  | [] => simp [execute_cmd] at h
  | a0 :: rest =>
    rw [execute_cmd] at h
    cases hlk : built_in_cmds.lookup a0 with
    | none => rw [hlk] at h; exact absurd h (launch_cmd_outcome_ne_exit w code)
    | some b =>
      rw [hlk] at h
      rw [lookup_built_in_eq] at hlk
      split_ifs at hlk with h1 h2 h3
      · obtain ⟨s, hs⟩ := cmd_cd_outcome_ret w.chdir cwd (a0 :: rest)
        cases hlk
        simp [runBuiltin, hs] at h
      · cases hlk
        simp [runBuiltin, cmd_help] at h
      · subst h3; rfl

/-! ## Claim theorems -/

/-- **C1** (code_bug): in the child branch of `launch_cmd`, a failed `execvp`
is followed by `perror` and `return 0` (shell.cpp:79-82): control returns
from `launch_cmd` into the caller inside the forked child — the child process
does not terminate, contradicting the claim (and the spec, which requires
that the child never fall back into the parent's REPL logic). -/
theorem C1_child_exec_failure_returns_into_caller :
    launch_cmd_child false =
      (ChildBehavior.returnedToCaller 0, ["[shell] Error launching command."])
    ∧ (∀ code, (launch_cmd_child false).1 ≠ ChildBehavior.terminatedProcess code) := by
  exact ⟨rfl, fun code => by simp [launch_cmd_child]⟩

/-- **C2** (counterexample): `tokenize_line` is not pure — on the input
`"ls -la"` it overwrites the space separating the two tokens with NUL, so the
line buffer after the call differs from the original line. -/
theorem C2_tokenizer_mutates_buffer_counterexample :
    tokenize_line_buffer "ls -la".toList = "ls\x00-la".toList
    ∧ tokenize_line_buffer "ls -la".toList ≠ "ls -la".toList := by
  decide

/-- **C2** (amended): `tokenize_line` tokenizes with `strtok`, which mutates
the input line buffer in place — the buffer after the call is exactly the
original line with each delimiter character that directly follows a token
character overwritten by NUL — and the returned tokens are `strtok`'s
pointers into that buffer rather than fresh storage (shell.cpp:302-308
documents that the token array points into `line`). -/
theorem C2_tokenizer_buffer_mutation :
    ∀ line, tokenize_line_buffer line = strtokMutation line :=
  tokenize_line_buffer_eq_mutation

/-- **C4** (counterexample): `read_line` is built on `getline`, which stores
the newline: reading the stream `"ab\ncd"` yields the line `"ab\n"`, whose
last character is the trailing newline — not `"ab"`. -/
theorem C4_read_line_keeps_newline_counterexample :
    read_line (.text "ab\ncd".toList) = .ok ("ab\n".toList, "cd".toList)
    ∧ ("ab\n".toList).getLast? = some '\n'
    ∧ "ab\n".toList ≠ "ab".toList :=
  ⟨rfl, by decide, by decide⟩

/-- **C4** (amended): for every complete line, `read_line` returns the line's
text *including* the trailing newline character (the newline is only discarded
later, by the tokenizer, because `'\n'` is in its delimiter set). -/
theorem C4_read_line_returns_line_with_newline (pre rest : List Char)
    (h : ∀ c ∈ pre, c ≠ '\n') :
    read_line (.text (pre ++ '\n' :: rest)) = .ok (pre ++ ['\n'], rest) := by
  cases pre with
  | nil => simp [read_line, getline, List.dropWhile, List.takeWhile]
  | cons p ps =>
    have hd := dropWhile_no_newline (p :: ps) rest h
    have ht := takeWhile_no_newline (p :: ps) rest h
    simp only [List.cons_append] at hd ht
    simp [read_line, getline, hd, ht]

/-- Witness for the amended C4 at the concrete stream `"ok\n"`. -/
theorem C4_read_line_returns_line_with_newline_witness :
    read_line (.text ("ok".toList ++ '\n' :: [])) = .ok ("ok".toList ++ ['\n'], []) :=
  C4_read_line_returns_line_with_newline "ok".toList [] (by decide)

/-- **C5**: the tokenizer splits on runs of whitespace (space, tab, carriage
return, newline, bell): its token values are the whitespace-split of the line
with empty pieces dropped (so any whitespace run is a single delimiter), a
line of only whitespace yields no tokens, no token is empty, and
`"ls  -la  /tmp"` yields exactly `["ls", "-la", "/tmp"]`. -/
theorem C5_tokenizer_splits_on_whitespace_runs :
    (∀ line, (strtokRun line).1 = wsSplitSpec line)
    ∧ (∀ line, (∀ c ∈ line, isDelim c = true) → tokenize_line line = [])
    ∧ (∀ line t, t ∈ (strtokRun line).1 → t ≠ [])
    ∧ tokenize_line "ls  -la  /tmp".toList = ["ls", "-la", "/tmp"] := by
  refine ⟨strtokRun_fst_eq_wsSplitSpec, ?_, strtokRun_fst_ne_nil, by decide⟩
  intro line h
  rw [tokenize_line]
  rw [show (strtokRun line).1 = [] from strtokGo_all_delim line h]
  rfl

/-- Witness for C5 at concrete inputs: a whitespace-only line yields no
tokens. -/
theorem C5_tokenizer_splits_on_whitespace_runs_witness :
    tokenize_line "   \t ".toList = [] :=
  C5_tokenizer_splits_on_whitespace_runs.2.1 "   \t ".toList (by decide)

/-- **C3**: after a successful fork the parent's wait loop returns only at a
report satisfying `WIFEXITED || WIFSIGNALED` (and then `launch_cmd` returns
status `1` whatever that terminal state was); if a terminal report arrives the
loop finds one; a stopped report is never treated as terminal (the loop
recurses past it); and without a terminal report the parent stays blocked. -/
theorem C3_parent_waits_until_terminal :
    (∀ w : OsWorld, w.forkOk = true →
      (∃ s ∈ w.waits, isTerminalState s = true) →
      ∃ s n, waitLoop w.waits = some (s, n) ∧ isTerminalState s = true ∧
        launch_cmd w = { outcome := .ret 1, waitCalls := n, msgs := [] })
    ∧ (∀ (l : List WaitStatus) (s : WaitStatus) (n : Nat),
        waitLoop l = some (s, n) → isTerminalState s = true)
    ∧ (∀ (sig : Nat) (rest : List WaitStatus),
        waitLoop (.stopped sig :: rest) = (waitLoop rest).map (fun r => (r.1, r.2 + 1)))
    ∧ (∀ w : OsWorld, w.forkOk = true → waitLoop w.waits = none →
        launch_cmd w = { outcome := .blocked, waitCalls := w.waits.length, msgs := [] }) := by
  refine ⟨?_, fun l => waitLoop_terminal l, waitLoop_cons_stopped, ?_⟩
  · intro w hfork hex
    obtain ⟨s, n, hm⟩ := waitLoop_finds_terminal w.waits hex
    exact ⟨s, n, hm, waitLoop_terminal w.waits s n hm, by simp [launch_cmd, hfork, hm]⟩
  · intro w hfork hnone
    simp [launch_cmd, hfork, hnone]

/-- Witness for C3: a child first reported stopped, then exited — the loop
skips the stopped report and `launch_cmd` returns status 1 after two
`waitpid` calls. -/
theorem C3_parent_waits_until_terminal_witness :
    ∃ s n,
      waitLoop (OsWorld.waits ⟨true, true, [.stopped 19, .exited 0], fun _ => none⟩) =
        some (s, n)
      ∧ isTerminalState s = true
      ∧ launch_cmd ⟨true, true, [.stopped 19, .exited 0], fun _ => none⟩ =
          { outcome := .ret 1, waitCalls := n, msgs := [] } :=
  C3_parent_waits_until_terminal.1 ⟨true, true, [.stopped 19, .exited 0], fun _ => none⟩
    rfl ⟨.exited 0, by decide, by decide⟩

/-- **C6**: `execute_cmd` looks `args[0]` up in the registry by exact string
match; a registered name is always routed to its built-in handler (whose
result is returned unchanged), and only an unregistered name is delegated to
`launch_cmd` — so an external program named like a built-in is unreachable. -/
theorem C6_registry_takes_precedence :
    ∀ (w : OsWorld) (cwd : String) (a0 : String) (rest : List String),
      (∀ b, built_in_cmds.lookup a0 = some b →
        execute_cmd w cwd (a0 :: rest) =
          { outcome := (runBuiltin w cwd b (a0 :: rest)).1,
            cwd := (runBuiltin w cwd b (a0 :: rest)).2.1,
            route := .builtin a0,
            msgs := (runBuiltin w cwd b (a0 :: rest)).2.2 })
      ∧ (built_in_cmds.lookup a0 = none →
        execute_cmd w cwd (a0 :: rest) =
          { outcome := (launch_cmd w).outcome, cwd := cwd,
            route := .externalProg a0, msgs := (launch_cmd w).msgs }) := by
  intro w cwd a0 rest
  refine ⟨fun b hb => ?_, fun hb => ?_⟩ <;> simp [execute_cmd, hb]

/-- Witness for C6: the name `cd` is dispatched to the built-in handler. -/
theorem C6_registry_takes_precedence_witness :
    execute_cmd ⟨true, true, [], fun _ => none⟩ "/" ["cd"] =
      { outcome := .ret 0, cwd := "/", route := .builtin "cd",
        msgs := ["No path provided. Usage: cd <path>"] } :=
  ((C6_registry_takes_precedence ⟨true, true, [], fun _ => none⟩ "/" "cd" []).1
      Builtin.cd rfl).trans rfl

/-- **C7**: `cmd_cd` with no path argument reports a usage error and returns
status 0 leaving the working directory unchanged; when `chdir` fails it
reports the error and returns status 0 with the working directory unchanged;
on success it returns status 1. -/
theorem C7_cmd_cd_contract :
    ∀ (ch : String → Option String) (cwd : String),
      (∀ a0 : String, cmd_cd ch cwd [a0] =
        (.ret 0, cwd, ["No path provided. Usage: cd <path>"]))
      ∧ (∀ args p, args[1]? = some p → ch p = none →
          cmd_cd ch cwd args = (.ret 0, cwd, ["[shell] Error changing directory."]))
      ∧ (∀ args p d, args[1]? = some p → ch p = some d →
          cmd_cd ch cwd args = (.ret 1, d, [])) := by
  intro ch cwd
  exact ⟨fun a0 => by simp [cmd_cd],
    fun args p hp hch => by simp [cmd_cd, hp, hch],
    fun args p d hp hch => by simp [cmd_cd, hp, hch]⟩

/-- Witness for C7: `cd /nonexistent-path-xyz` under a `chdir` that fails
returns status 0 and leaves the working directory unchanged. -/
theorem C7_cmd_cd_contract_witness :
    cmd_cd (fun _ => none) "/" ["cd", "/nonexistent-path-xyz"] =
      (.ret 0, "/", ["[shell] Error changing directory."]) :=
  (C7_cmd_cd_contract (fun _ => none) "/").2.1 ["cd", "/nonexistent-path-xyz"]
    "/nonexistent-path-xyz" rfl rfl

/-- **C8**: when `fork` fails, `launch_cmd` reports the error and returns
status 0 after zero `waitpid` calls (no blocking); the dispatcher passes that
status through, and the REPL iteration ends with `.next` — the loop continues
to the next prompt. -/
theorem C8_fork_failure_reported_no_block :
    ∀ (w : OsWorld) (cwd : String) (a0 : String) (rest : List String),
      w.forkOk = false → built_in_cmds.lookup a0 = none →
      launch_cmd w =
        { outcome := .ret 0, waitCalls := 0,
          msgs := ["Error forking process", "[shell] Error forking child process."] }
      ∧ execute_cmd w cwd (a0 :: rest) =
          { outcome := .ret 0, cwd := cwd, route := .externalProg a0,
            msgs := ["Error forking process", "[shell] Error forking child process."] }
      ∧ (∀ (line rest2 : List Char), w.allocOk = true →
          tokenize_line line = a0 :: rest →
          repl_body w cwd line rest2 = .next rest2 cwd) := by
  intro w cwd a0 rest hfork hlook
  have hl : launch_cmd w =
      { outcome := .ret 0, waitCalls := 0,
        msgs := ["Error forking process", "[shell] Error forking child process."] } := by
    simp [launch_cmd, hfork]
  refine ⟨hl, by simp [execute_cmd, hlook, hl], ?_⟩
  intro line rest2 hA htok
  simp [repl_body, sizeof_line, hA, repl_dispatch, htok, execute_cmd, hlook, hl]

/-- Witness for C8: `fork` fails while launching `true`; the iteration still
continues to the next prompt. -/
theorem C8_fork_failure_reported_no_block_witness :
    repl_body ⟨false, true, [], fun _ => none⟩ "/" "true\n".toList [] = .next [] "/" :=
  ((C8_fork_failure_reported_no_block ⟨false, true, [], fun _ => none⟩ "/" "true" []
      rfl rfl).2.2) "true\n".toList [] rfl (by decide)

/-- **C10**: the guard `sizeof(line) == 0` compares the size of a pointer and
is never true, so the "Empty input received" branch is dead code: every line
(including empty and whitespace-only ones) reaches `tokenize_line` and
`execute_cmd`, and the zero-token case is handled inside `execute_cmd`, which
prints a notice and returns status 1 (so the iteration just continues). -/
theorem C10_sizeof_guard_is_dead_code :
    (sizeof_line == 0) = false
    ∧ (∀ (w : OsWorld) (cwd : String) (line rest : List Char), w.allocOk = true →
        repl_body w cwd line rest = repl_dispatch w cwd line rest)
    ∧ (∀ (w : OsWorld) (cwd : String), execute_cmd w cwd [] =
        { outcome := .ret 1, cwd := cwd, route := .emptyNotice,
          msgs := ["Empty command entered, please enter your input..."] })
    ∧ (∀ (w : OsWorld) (cwd : String) (line rest : List Char),
        (∀ c ∈ line, isDelim c = true) → w.allocOk = true →
        repl_body w cwd line rest = .next rest cwd) := by
  refine ⟨rfl, fun w cwd line rest hA => by simp [repl_body, sizeof_line, hA],
    fun w cwd => rfl, ?_⟩
  intro w cwd line rest hws hA
  have htok : tokenize_line line = [] := by
    rw [tokenize_line, show (strtokRun line).1 = [] from strtokGo_all_delim line hws]
    rfl
  simp [repl_body, sizeof_line, hA, repl_dispatch, htok, execute_cmd]

/-- Witness for C10: a whitespace-only line flows through `tokenize_line` and
`execute_cmd` and the loop continues. -/
theorem C10_sizeof_guard_is_dead_code_witness :
    repl_body ⟨true, true, [], fun _ => none⟩ "/" " \t\n".toList [] = .next [] "/" :=
  C10_sizeof_guard_is_dead_code.2.2.2 ⟨true, true, [], fun _ => none⟩ "/"
    " \t\n".toList [] (by decide) rfl

/-- **C9**: one REPL iteration terminates the process with exit code 0 exactly
when the input is at end of stream or the line's first token is `exit` (whose
handler ignores its arguments and never returns); a read error or an
allocation failure terminates the process with the non-zero code 1. -/
theorem C9_process_exit_codes :
    ∀ (w : OsWorld) (cwd : String) (inp : InStream),
      (repl_iteration w cwd inp = .exitProc 0 ↔
        inp = .text [] ∨
          ∃ c cs, inp = .text (c :: cs) ∧ w.allocOk = true ∧
            (tokenize_line (getline (c :: cs)).1).head? = some "exit")
      ∧ repl_iteration w cwd .ioError = .exitProc 1
      ∧ (∀ (c : Char) (cs : List Char), w.allocOk = false →
          repl_iteration w cwd (.text (c :: cs)) = .exitProc 1)
      ∧ (∀ args : List String, cmd_exit args = .exitProcess 0) := by
  intro w cwd inp
  refine ⟨?_, rfl,
    fun c cs hA => by simp [repl_iteration, read_line, repl_body, sizeof_line, hA],
    fun args => rfl⟩
  cases inp with
  | ioError =>
    simp [repl_iteration, read_line]
  | text cs0 =>
    cases cs0 with
    | nil => simp [repl_iteration, read_line]
    | cons c cs =>
      simp only [repl_iteration, read_line]
      by_cases hA : w.allocOk
      case neg =>
        have hA' : w.allocOk = false := by simpa using hA
        simp [repl_body, sizeof_line, hA']
      case pos =>
        have hbody : repl_body w cwd (getline (c :: cs)).1 (getline (c :: cs)).2 =
            repl_dispatch w cwd (getline (c :: cs)).1 (getline (c :: cs)).2 := by
          simp [repl_body, sizeof_line, hA]
        rw [hbody]
        constructor
        · intro h
          unfold repl_dispatch at h
          rcases hE : execute_cmd w cwd (tokenize_line (getline (c :: cs)).1) with
            ⟨o, cwd', rt, ms⟩
          rw [hE] at h
          cases o with
          | ret s => simp at h
          | blocked => simp at h
          | exitProcess code =>
            have hhead := execute_cmd_exit_only w cwd
              (tokenize_line (getline (c :: cs)).1) code (by rw [hE])
            exact Or.inr ⟨c, cs, rfl, hA, hhead⟩
        · intro h
          rcases h with h | ⟨c', cs', heq, -, hhead⟩
          · exact absurd h (by simp)
          · have hls : c :: cs = c' :: cs' := by injection heq
            injection hls with h1 h2
            subst h1
            subst h2
            unfold repl_dispatch
            rcases htok : tokenize_line (getline (c :: cs)).1 with _ | ⟨a0, rest'⟩
            · rw [htok] at hhead; simp at hhead
            · rw [htok] at hhead
              simp only [List.head?_cons, Option.some.injEq] at hhead
              subst hhead
              simp [execute_cmd, lookup_built_in_eq, runBuiltin, cmd_exit]

/-- Witness for C9: a failed allocation while tokenizing the line `"x"`
terminates the process with the non-zero code 1. -/
theorem C9_process_exit_codes_witness :
    repl_iteration ⟨true, false, [], fun _ => none⟩ "/" (.text ['x']) = .exitProc 1 :=
  (C9_process_exit_codes ⟨true, false, [], fun _ => none⟩ "/" (.text ['x'])).2.2.1
    'x' [] rfl

end ShellLite
